import Mathlib

/-!
Verification development for the e-commerce backend's order lifecycle
engine, payment-to-order flow, cart operations and TTL cache.

The definitions below are shallow embeddings of the TypeScript sources:
- order status machine and history: `src/backend/src/types/order.types.ts`,
  `OrderService.updateOrderStatus` and `OrderService.createOrder`
  (`order.service.ts`);
- bulk update: `AdminService.bulkUpdateOrderStatus` (`admin.service.ts`);
- cart model and service: `src/backend/src/models/cart.model.ts`,
  `cart.service.ts`;
- cache: `src/backend/src/utils/cache.ts`.

Machine numbers (`number` in TS) are modelled as rationals (`Rat`) for
prices and as `Int`/`Nat` for counts and ids; `Date.now()` times are
`Nat` milliseconds passed explicitly.  Database collections are lists of
documents; `findById` / `findByIdAndUpdate` are keyed by the `_id`
field.  Throwing code returns `Except String`.
-/

namespace ECom

/-- `OrderStatus` from `order.types.ts`. -/
inductive OrderStatus
  | pending
  | processing
  | shipped
  | delivered
  | cancelled
deriving DecidableEq, Repr

/-- `PaymentStatus` from `order.types.ts`. -/
inductive PaymentStatus
  | pending
  | paid
  | failed
  | refunded
deriving DecidableEq, Repr

/-- The string written for a status in error messages and notes
(template interpolation of the TS enum value). -/
def OrderStatus.toText : OrderStatus → String
  | .pending => "pending"
  | .processing => "processing"
  | .shipped => "shipped"
  | .delivered => "delivered"
  | .cancelled => "cancelled"

/-- The `validTransitions` record literal of `OrderService.updateOrderStatus`
and `AdminService.bulkUpdateOrderStatus` (identical in both). -/
def validTransitions : OrderStatus → List OrderStatus
  | .pending => [.processing, .cancelled]
  | .processing => [.shipped, .cancelled]
  | .shipped => [.delivered, .cancelled]
  | .delivered => []
  | .cancelled => []

/-- `StatusHistoryEntry` from `order.types.ts`. -/
structure StatusHistoryEntry where
  status : OrderStatus
  timestamp : Nat
  note : Option String
deriving DecidableEq, Repr

/-- `TrackingInfo` from `order.types.ts` (all sub-fields optional). -/
structure TrackingInfo where
  carrier : Option String
  trackingNumber : Option String
  estimatedDelivery : Option Nat
deriving DecidableEq, Repr

/-- `ShippingAddress` from `order.types.ts`. -/
structure ShippingAddress where
  fullName : String
  address : String
  city : String
  state : String
  postalCode : String
  country : String
  phone : Option String
deriving DecidableEq, Repr

/-- `OrderItem` from `order.types.ts`. -/
structure OrderItem where
  productId : Int
  quantity : Int
  price : Rat
  title : String
  thumbnail : String
deriving DecidableEq, Repr

/-- `Order` from `order.types.ts` (persisted document; `_id` is the
Mongo document id rendered as a string). -/
structure Order where
  _id : String
  userId : String
  items : List OrderItem
  totalItems : Int
  subtotal : Rat
  tax : Rat
  shipping : Rat
  totalPrice : Rat
  shippingAddress : ShippingAddress
  paymentIntentId : String
  paymentStatus : PaymentStatus
  orderStatus : OrderStatus
  statusHistory : List StatusHistoryEntry
  trackingInfo : Option TrackingInfo
deriving DecidableEq, Repr

/-- `ICartItem` from `cart.model.ts`. -/
structure CartItem where
  productId : Int
  quantity : Int
  price : Rat
  title : String
  thumbnail : String
  addedAt : Nat
deriving DecidableEq, Repr

/-- `ICart` from `cart.model.ts`. -/
structure Cart where
  _id : String
  userId : String
  items : List CartItem
  totalItems : Int
  totalPrice : Rat
deriving DecidableEq, Repr

/-- `UpdateOrderStatusPayload` from `order.types.ts`. -/
structure UpdateOrderStatusPayload where
  status : OrderStatus
  note : Option String
  trackingInfo : Option TrackingInfo
deriving DecidableEq, Repr

/-- `BulkUpdateStatusPayload` from `admin.types.ts`. -/
structure BulkUpdateStatusPayload where
  orderIds : List String
  status : OrderStatus
  note : Option String
deriving DecidableEq, Repr

/-- `BulkActionResponse` from `admin.types.ts` (`errors` is omitted,
i.e. `none`, when no error was collected). -/
structure BulkActionResponse where
  success : Bool
  updated : Nat
  failed : Nat
  errors : Option (List String)
deriving DecidableEq, Repr

/-- `AddToCartInput` from `cart.service.ts`. -/
structure AddToCartInput where
  productId : Int
  quantity : Int
  price : Rat
  title : String
  thumbnail : String
deriving DecidableEq, Repr

/-- JavaScript `Math.round`: round half toward positive infinity. -/
def jsRound (x : Rat) : Int := ⌊x + 1 / 2⌋

/-- The order collection: a list of `Order` documents. -/
abbrev OrderDB := List Order

/-- `OrderModel.findById` — first document whose `_id` matches. -/
def findById (db : OrderDB) (orderId : String) : Option Order :=
  db.find? (fun o => o._id == orderId)

/-- `OrderModel.findByIdAndUpdate` — rewrite the document whose `_id`
matches (Mongo ids are unique per collection). -/
def findByIdAndUpdate (db : OrderDB) (orderId : String) (f : Order → Order) : OrderDB :=
  db.map (fun o => if o._id == orderId then f o else o)

/-- JavaScript `x || d` on an optional string: the default is used both
when the string is absent and when it is empty (falsy). -/
def noteWithDefault (note : Option String) (d : String) : String :=
  match note with
  | some n => if n == "" then d else n
  | none => d

/-- `calculateTotals` method of `cart.model.ts`: `totalItems` is the sum
of quantities, `totalPrice` the sum of `price * quantity`.  It runs on
every `save` via the pre-save hook. -/
def calculateTotals (c : Cart) : Cart :=
  { c with
    totalItems := c.items.foldl (fun sum item => sum + item.quantity) 0
    totalPrice := c.items.foldl (fun sum item => sum + item.price * (item.quantity : Rat)) 0 }

/-- Sum of quantities of a cart item list (the `totalItems` reduce). -/
def cartTotalItems (items : List CartItem) : Int :=
  items.foldl (fun sum item => sum + item.quantity) 0

/-- Sum of `price * quantity` of a cart item list (the `totalPrice` reduce). -/
def cartTotalPrice (items : List CartItem) : Rat :=
  items.foldl (fun sum item => sum + item.price * (item.quantity : Rat)) 0

/-- `addToCart` of `cart.service.ts` (after `getOrCreate`): if an item
with the same `productId` exists (`findIndex > -1`), add the requested
quantity to it and overwrite its stored price with the incoming one;
otherwise push a new item.  The final `save` recomputes totals through
the pre-save hook. -/
def addToCart (cart : Cart) (input : AddToCartInput) (now : Nat) : Cart :=
  let items :=
    match cart.items.findIdx? (fun item => item.productId == input.productId) with
    | some i =>
      match cart.items[i]? with
      | some item =>
        cart.items.set i
          { item with quantity := item.quantity + input.quantity, price := input.price }
      | none => cart.items
    | none =>
      cart.items ++
        [{ productId := input.productId, quantity := input.quantity, price := input.price,
           title := input.title, thumbnail := input.thumbnail, addedAt := now }]
  calculateTotals { cart with items := items }

/-- Cache entry from `cache.ts`: a value and an absolute expiry time in
milliseconds. -/
structure CacheEntry (A : Type) where
  data : A
  expiry : Nat
deriving DecidableEq, Repr

/-- `CacheStore` from `cache.ts`: a map from keys to entries (modelled
as an association list with unique keys maintained by `set`) and a
default TTL in milliseconds. -/
structure CacheStore (A : Type) where
  cache : List (String × CacheEntry A)
  defaultTTL : Nat
deriving DecidableEq, Repr

/-- `Map.get` on the association list. -/
def CacheStore.lookup (s : CacheStore A) (key : String) : Option (CacheEntry A) :=
  (s.cache.find? (fun p => p.1 == key)).map Prod.snd

/-- `Map.delete`. -/
def CacheStore.del (s : CacheStore A) (key : String) : CacheStore A :=
  { s with cache := s.cache.filter (fun p => p.1 != key) }

/-- `CacheStore.get`: miss on an absent key; evict and miss on an
expired key (`Date.now() > entry.expiry`); hit otherwise.  Returns the
store after the read together with the result. -/
def CacheStore.get (s : CacheStore A) (now : Nat) (key : String) :
    CacheStore A × Option A :=
  match s.lookup key with
  | none => (s, none)
  | some entry =>
    if now > entry.expiry then (s.del key, none)
    else (s, some entry.data)

/-- `CacheStore.set`: store with expiry `now + ttl` where the TTL is
`ttlSeconds * 1000` when a truthy (nonzero) `ttlSeconds` is supplied and
the default TTL otherwise (`ttlSeconds ? ttlSeconds * 1000 : defaultTTL`);
overwrites any entry under the same key. -/
def CacheStore.set (s : CacheStore A) (now : Nat) (key : String) (data : A)
    (ttlSeconds : Option Nat) : CacheStore A :=
  let ttl :=
    match ttlSeconds with
    | some t => if t == 0 then s.defaultTTL else t * 1000
    | none => s.defaultTTL
  { s with
    cache := (s.cache.filter (fun p => p.1 != key)) ++ [(key, ⟨data, now + ttl⟩)] }

/-- One payment-provider `paymentIntents.create` call as issued by
`createPaymentIntent`: the amount in cents, the currency, and the
computed totals that are also sent as metadata; `totalPrice` is the
total the amount was derived from. -/
structure IntentCreateCall where
  amount : Int
  currency : String
  userId : String
  cartId : String
  subtotal : Rat
  tax : Rat
  shipping : Rat
  totalPrice : Rat
deriving DecidableEq, Repr

/-- The persistent and provider state `OrderService` reads and writes:
the payment provider's intent statuses (by intent id), the order and
cart collections, and a counter from which fresh order ids are drawn. -/
structure SysState where
  intents : List (String × String)
  orders : OrderDB
  carts : List Cart
  nextOrderId : Nat
deriving DecidableEq, Repr

/-- `Cart.findOne (userId)`. -/
def findCartByUserId (carts : List Cart) (userId : String) : Option Cart :=
  carts.find? (fun c => c.userId == userId)

/-- `OrderService.createPaymentIntent`: load the user's cart, fail with
"Cart is empty" when it is absent or has no items, otherwise compute
subtotal (the cart's stored `totalPrice`), 10% tax rounded to cents,
free shipping and the total, and issue one provider create-intent call.
The first component lists the provider calls performed. -/
def createPaymentIntent (st : SysState) (userId : String) :
    List IntentCreateCall × Except String IntentCreateCall :=
  match findCartByUserId st.carts userId with
  | none => ([], .error "Cart is empty")
  | some cart =>
    if cart.items.isEmpty then ([], .error "Cart is empty")
    else
      let subtotal := cart.totalPrice
      let tax := (jsRound (subtotal * (1 / 10) * 100) : Rat) / 100
      let shipping : Rat := 0
      let totalPrice := subtotal + tax + shipping
      let amountInCents := jsRound (totalPrice * 100)
      let call : IntentCreateCall :=
        { amount := amountInCents, currency := "usd", userId := userId,
          cartId := cart._id, subtotal := subtotal, tax := tax,
          shipping := shipping, totalPrice := totalPrice }
      ([call], .ok call)

/-- `OrderService.createOrder`: verify the intent status is
"succeeded"; return the existing order if one already carries this
`paymentIntentId`; otherwise snapshot the (non-empty) cart into a new
order with `paymentStatus = paid`, `orderStatus = processing` and the
two creation history entries, then clear the cart. -/
def createOrder (now : Nat) (st : SysState) (userId paymentIntentId : String)
    (addr : ShippingAddress) : SysState × Except String Order :=
  match (st.intents.find? (fun p => p.1 == paymentIntentId)).map Prod.snd with
  | none => (st, .error "No such payment_intent")
  | some status =>
    if status != "succeeded" then (st, .error "Payment not completed")
    else
      match st.orders.find? (fun o => o.paymentIntentId == paymentIntentId) with
      | some existingOrder => (st, .ok existingOrder)
      | none =>
        match findCartByUserId st.carts userId with
        | none => (st, .error "Cart is empty")
        | some cart =>
          if cart.items.isEmpty then (st, .error "Cart is empty")
          else
            let subtotal := cart.totalPrice
            let tax := (jsRound (subtotal * (1 / 10) * 100) : Rat) / 100
            let shipping : Rat := 0
            let totalPrice := subtotal + tax + shipping
            let order : Order :=
              { _id := "order-" ++ toString st.nextOrderId
                userId := userId
                items := cart.items.map (fun item =>
                  { productId := item.productId, quantity := item.quantity,
                    price := item.price, title := item.title,
                    thumbnail := item.thumbnail })
                totalItems := cart.totalItems
                subtotal := subtotal
                tax := tax
                shipping := shipping
                totalPrice := totalPrice
                shippingAddress := addr
                paymentIntentId := paymentIntentId
                paymentStatus := .paid
                orderStatus := .processing
                statusHistory :=
                  [{ status := .pending, timestamp := now, note := some "Order placed" },
                   { status := .processing, timestamp := now, note := some "Payment confirmed" }]
                trackingInfo := none }
            let st' : SysState :=
              { st with
                orders := st.orders ++ [order]
                carts := st.carts.map (fun c =>
                  if c._id == cart._id then
                    { c with items := [], totalItems := 0, totalPrice := 0 }
                  else c)
                nextOrderId := st.nextOrderId + 1 }
            (st', .ok order)

/-- `OrderService.updateOrderStatus`: `null` when the order is absent;
an "Invalid status transition from … to …" error when the target is not
in the current status's `validTransitions` row (nothing written);
otherwise set the status, push one history entry (note defaulted to
"Order " ++ status) and overwrite `trackingInfo` when one is supplied.
Returns the collection after the call and the TS return value. -/
def updateOrderStatus (now : Nat) (db : OrderDB) (orderId : String)
    (payload : UpdateOrderStatusPayload) : OrderDB × Except String (Option Order) :=
  match findById db orderId with
  | none => (db, .ok none)
  | some order =>
    if payload.status ∈ validTransitions order.orderStatus then
      let entry : StatusHistoryEntry :=
        { status := payload.status, timestamp := now,
          note := some (noteWithDefault payload.note ("Order " ++ payload.status.toText)) }
      let db' := findByIdAndUpdate db orderId (fun o =>
        { o with
          orderStatus := payload.status
          statusHistory := o.statusHistory ++ [entry]
          trackingInfo :=
            match payload.trackingInfo with
            | some t => some t
            | none => o.trackingInfo })
      (db', .ok (findById db' orderId))
    else
      (db, .error ("Invalid status transition from " ++ order.orderStatus.toText
        ++ " to " ++ payload.status.toText))

/-- The document rewrite issued for one order by the bulk loop's
`findByIdAndUpdate`: set the status and push one history entry whose
note defaults to "Bulk update: Order {status}". -/
def bulkApply (now : Nat) (status : OrderStatus) (note : Option String) (q : Order) :
    Order :=
  { q with
    orderStatus := status
    statusHistory := q.statusHistory ++
      [{ status := status, timestamp := now,
         note := some (noteWithDefault note ("Bulk update: Order " ++ status.toText)) }] }

/-- One iteration of the `for (const orderId of orderIds)` loop of
`AdminService.bulkUpdateOrderStatus`, acting on the accumulator
(collection, updated count, failed count, collected error messages). -/
def bulkStep (now : Nat) (status : OrderStatus) (note : Option String)
    (acc : OrderDB × Nat × Nat × List String) (orderId : String) :
    OrderDB × Nat × Nat × List String :=
  let (db, updated, failed, errors) := acc
  match findById db orderId with
  | none => (db, updated, failed + 1, errors ++ ["Order " ++ orderId ++ " not found"])
  | some order =>
    if status ∈ validTransitions order.orderStatus then
      (findByIdAndUpdate db orderId (bulkApply now status note),
       updated + 1, failed, errors)
    else
      (db, updated, failed + 1,
       errors ++ ["Order " ++ orderId ++ ": Invalid transition from "
         ++ order.orderStatus.toText ++ " to " ++ status.toText])

/-- `AdminService.bulkUpdateOrderStatus`: fold the per-id step over the
requested ids, then report `success` iff nothing failed and the error
list only when non-empty. -/
def bulkUpdateOrderStatus (now : Nat) (db : OrderDB) (payload : BulkUpdateStatusPayload) :
    OrderDB × BulkActionResponse :=
  let r := payload.orderIds.foldl (bulkStep now payload.status payload.note) (db, 0, 0, [])
  (r.1,
   { success := r.2.2.1 == 0
     updated := r.2.1
     failed := r.2.2.1
     errors := if r.2.2.2.length > 0 then some r.2.2.2 else none })

/-- Whether `bulkUpdateOrderStatus` can update `orderId` against a given
collection: the order exists and the target is reachable from its
current status. -/
def canUpdate (db : OrderDB) (status : OrderStatus) (orderId : String) : Bool :=
  match findById db orderId with
  | none => false
  | some o => status ∈ validTransitions o.orderStatus

/-- The documented order invariant: the status history is non-empty and
its last entry carries the current `orderStatus`. -/
def historyOk (o : Order) : Prop :=
  o.statusHistory ≠ [] ∧
    (o.statusHistory.getLast?).map StatusHistoryEntry.status = some o.orderStatus

instance (o : Order) : Decidable (historyOk o) := by
  unfold historyOk; infer_instance

/-! ### Fixtures used by witnesses and counterexamples -/

/-- A fixed shipping address. -/
def exAddr : ShippingAddress :=
  { fullName := "Jane Doe", address := "1 Main St", city := "Springfield",
    state := "IL", postalCode := "62701", country := "US", phone := none }

/-- An order sitting at `pending` with one history entry. -/
def exOrderPending : Order :=
  { _id := "o1", userId := "u", items := [⟨1, 2, 10, "Mouse", "th"⟩],
    totalItems := 2, subtotal := 20, tax := 2, shipping := 0, totalPrice := 22,
    shippingAddress := exAddr, paymentIntentId := "pi_1", paymentStatus := .paid,
    orderStatus := .pending,
    statusHistory := [{ status := .pending, timestamp := 0, note := some "Order placed" }],
    trackingInfo := none }

/-- A second pending order under a different id. -/
def exOrderPendingB : Order :=
  { exOrderPending with _id := "o2", paymentIntentId := "pi_2" }

/-- Tracking data as in the spec's example scenario. -/
def exTracking : TrackingInfo :=
  { carrier := some "UPS", trackingNumber := some "1Z999", estimatedDelivery := none }

/-- A status-update payload asking for `processing` while also supplying
tracking data. -/
def exPayloadTrack : UpdateOrderStatusPayload :=
  { status := .processing, note := none, trackingInfo := some exTracking }

/-- A status-update payload asking for `shipped` (invalid from `pending`). -/
def exPayloadShipped : UpdateOrderStatusPayload :=
  { status := .shipped, note := none, trackingInfo := none }

/-- A status-update payload asking for `processing` with a caller note. -/
def exPayloadProc : UpdateOrderStatusPayload :=
  { status := .processing, note := some "ok", trackingInfo := none }

/-- The cart of the spec's totals example: (price 10.00, qty 2) and
(price 5.00, qty 1). -/
def exCart : Cart :=
  { _id := "c1", userId := "u",
    items := [⟨1, 2, 10, "Mouse", "th", 0⟩, ⟨2, 1, 5, "Pad", "th2", 0⟩],
    totalItems := 3, totalPrice := 25 }

/-- System state holding a succeeded intent, no orders, and `exCart`. -/
def exState : SysState :=
  { intents := [("pi_1", "succeeded")], orders := [], carts := [exCart],
    nextOrderId := 0 }

/-! ### Helper lemmas about the keyed collection -/

theorem findById_update_same (db : OrderDB) (i : String) (f : Order → Order)
    (hf : ∀ o, (f o)._id = o._id) :
    findById (findByIdAndUpdate db i f) i = (findById db i).map f := by
  induction db with
  | nil => rfl
  | cons o rest ih =>
    by_cases h : o._id = i
    · have hbeq : (o._id == i) = true := by simp [h]
      simp only [findById, findByIdAndUpdate, List.map_cons, hbeq, if_true]
      rw [List.find?_cons_of_pos _ (by simp [hf, h]),
        List.find?_cons_of_pos _ (by simp [h])]
      rfl
    · have hbeq : (o._id == i) = false := by simp [h]
      simp only [findById, findByIdAndUpdate, List.map_cons, hbeq, Bool.false_eq_true,
        if_false]
      rw [List.find?_cons_of_neg _ (by simp [h]), List.find?_cons_of_neg _ (by simp [h])]
      exact ih

theorem findById_update_ne (db : OrderDB) (i j : String) (f : Order → Order)
    (hf : ∀ o, (f o)._id = o._id) (hij : j ≠ i) :
    findById (findByIdAndUpdate db i f) j = findById db j := by
  induction db with
  | nil => rfl
  | cons o rest ih =>
    by_cases h : o._id = i
    · have hbeq : (o._id == i) = true := by simp [h]
      have hoj : o._id ≠ j := by rw [h]; exact fun hc => hij hc.symm
      simp only [findById, findByIdAndUpdate, List.map_cons, hbeq, if_true]
      rw [List.find?_cons_of_neg _ (by simp [hf, hoj]),
        List.find?_cons_of_neg _ (by simp [hoj])]
      exact ih
    · have hbeq : (o._id == i) = false := by simp [h]
      simp only [findById, findByIdAndUpdate, List.map_cons, hbeq, Bool.false_eq_true,
        if_false]
      by_cases hj : o._id = j
      · rw [List.find?_cons_of_pos _ (by simp [hj]), List.find?_cons_of_pos _ (by simp [hj])]
      · rw [List.find?_cons_of_neg _ (by simp [hj]), List.find?_cons_of_neg _ (by simp [hj])]
        exact ih

/-! ### Claim theorems -/

/-- C1: for every stored order and requested target status, if the pair
(current status, target) is not in the `validTransitions` table, then
`updateOrderStatus` fails with an error naming both the current and the
requested status and returns the collection unchanged (so the order's
`orderStatus`, `statusHistory` and `trackingInfo` are untouched); the
table rows for `delivered` and `cancelled` are empty, so every
transition attempt out of either fails this way. -/
theorem updateOrderStatus_invalid_rejected
    (now : Nat) (db : OrderDB) (orderId : String) (p : UpdateOrderStatusPayload)
    (o : Order) (hfind : findById db orderId = some o)
    (hinvalid : p.status ∉ validTransitions o.orderStatus) :
    updateOrderStatus now db orderId p =
      (db, .error ("Invalid status transition from " ++ o.orderStatus.toText
        ++ " to " ++ p.status.toText)) ∧
    validTransitions .delivered = [] ∧ validTransitions .cancelled = [] := by
  refine ⟨?_, rfl, rfl⟩
  unfold updateOrderStatus
  rw [hfind]
  simp [hinvalid]

/-- Witness for C1: from `pending`, requesting `shipped` is rejected
with the message naming both statuses and the stored order untouched. -/
theorem updateOrderStatus_invalid_rejected_witness :
    findById [exOrderPending] "o1" = some exOrderPending ∧
    OrderStatus.shipped ∉ validTransitions exOrderPending.orderStatus ∧
    (updateOrderStatus 5 [exOrderPending] "o1" exPayloadShipped =
      ([exOrderPending], .error ("Invalid status transition from "
        ++ exOrderPending.orderStatus.toText ++ " to " ++ exPayloadShipped.status.toText)) ∧
      validTransitions .delivered = [] ∧ validTransitions .cancelled = []) :=
  ⟨by decide, by decide,
    updateOrderStatus_invalid_rejected 5 [exOrderPending] "o1" exPayloadShipped
      exOrderPending (by decide) (by decide)⟩

/-- C6: when the user's cart is absent or has no items,
`createPaymentIntent` fails with the "Cart is empty" error and the list
of payment-provider create-intent calls performed is empty. -/
theorem createPaymentIntent_emptyCart
    (st : SysState) (userId : String)
    (h : findCartByUserId st.carts userId = none ∨
      ∃ cart, findCartByUserId st.carts userId = some cart ∧ cart.items = []) :
    createPaymentIntent st userId = ([], .error "Cart is empty") := by
  unfold createPaymentIntent
  rcases h with h | ⟨cart, h, hempty⟩
  · rw [h]
  · rw [h]
    simp [hempty]

/-- System state with no cart stored for any user. -/
def exStateNoCart : SysState :=
  { intents := [], orders := [], carts := [], nextOrderId := 0 }

/-- Witness for C6: a user without a cart gets "Cart is empty" and no
provider call is made. -/
theorem createPaymentIntent_emptyCart_witness :
    findCartByUserId exStateNoCart.carts "u" = none ∧
    createPaymentIntent exStateNoCart "u" = ([], .error "Cart is empty") :=
  ⟨rfl, createPaymentIntent_emptyCart exStateNoCart "u" (Or.inl rfl)⟩

/-- C4: a successfully confirmed payment (intent succeeded, no order
yet for the intent, non-empty cart) creates an order whose
`orderStatus` is `processing` and whose `statusHistory` is exactly
`pending`/"Order placed" followed by `processing`/"Payment confirmed". -/
theorem createOrder_seeds_history
    (now : Nat) (st : SysState) (userId pid : String) (addr : ShippingAddress)
    (cart : Cart)
    (hintent : (st.intents.find? (fun q => q.1 == pid)).map Prod.snd = some "succeeded")
    (hnew : st.orders.find? (fun o => o.paymentIntentId == pid) = none)
    (hcart : findCartByUserId st.carts userId = some cart)
    (hne : cart.items.isEmpty = false) :
    ∃ o, (createOrder now st userId pid addr).2 = .ok o ∧
      o.orderStatus = .processing ∧
      o.statusHistory =
        [{ status := .pending, timestamp := now, note := some "Order placed" },
         { status := .processing, timestamp := now, note := some "Payment confirmed" }] := by
  unfold createOrder
  rw [hintent]
  simp only [bne_self_eq_false, Bool.false_eq_true, if_false]
  rw [hnew, hcart]
  simp only [hne, Bool.false_eq_true, if_false]
  exact ⟨_, rfl, rfl, rfl⟩

/-- Witness for C4: confirming the succeeded intent of `exState` yields
an order at `processing` with the two creation history entries. -/
theorem createOrder_seeds_history_witness :
    (exState.intents.find? (fun q => q.1 == "pi_1")).map Prod.snd = some "succeeded" ∧
    exState.orders.find? (fun o => o.paymentIntentId == "pi_1") = none ∧
    findCartByUserId exState.carts "u" = some exCart ∧
    exCart.items.isEmpty = false ∧
    (createOrder 7 exState "u" "pi_1" exAddr).2.map Order.orderStatus =
      .ok .processing ∧
    (createOrder 7 exState "u" "pi_1" exAddr).2.map Order.statusHistory =
      .ok [{ status := .pending, timestamp := 7, note := some "Order placed" },
           { status := .processing, timestamp := 7, note := some "Payment confirmed" }] := by
  obtain ⟨o, ho, hs, hh⟩ :=
    createOrder_seeds_history 7 exState "u" "pi_1" exAddr exCart
      (by decide) (by decide) (by decide) (by decide)
  refine ⟨by decide, by decide, by decide, by decide, ?_, ?_⟩
  · rw [ho]; simp [Except.map, hs]
  · rw [ho]; simp [Except.map, hh]

/-- The "order already exists for this payment" branch of
`createOrder`: with a succeeded intent and an order already carrying
this `paymentIntentId`, the call returns that order and changes
nothing. -/
theorem createOrder_existing (now : Nat) (st : SysState) (userId pid : String)
    (addr : ShippingAddress) (o : Order)
    (hintent : (st.intents.find? (fun q => q.1 == pid)).map Prod.snd = some "succeeded")
    (hex : st.orders.find? (fun q => q.paymentIntentId == pid) = some o) :
    createOrder now st userId pid addr = (st, .ok o) := by
  unfold createOrder
  rw [hintent]
  simp only [bne_self_eq_false, Bool.false_eq_true, if_false]
  rw [hex]

/-- The creating branch of `createOrder`: with a succeeded intent, no
existing order for the intent and a non-empty cart, a fresh order
carrying the intent id is appended and the cart emptied. -/
theorem createOrder_creates (now : Nat) (st : SysState) (userId pid : String)
    (addr : ShippingAddress) (cart : Cart)
    (hintent : (st.intents.find? (fun q => q.1 == pid)).map Prod.snd = some "succeeded")
    (hnew : st.orders.find? (fun o => o.paymentIntentId == pid) = none)
    (hcart : findCartByUserId st.carts userId = some cart)
    (hne : cart.items.isEmpty = false) :
    ∃ o1, createOrder now st userId pid addr =
      ({ st with
          orders := st.orders ++ [o1]
          carts := st.carts.map (fun c =>
            if c._id == cart._id then
              { c with items := [], totalItems := 0, totalPrice := 0 }
            else c)
          nextOrderId := st.nextOrderId + 1 }, .ok o1) ∧
      o1.paymentIntentId = pid := by
  unfold createOrder
  rw [hintent]
  simp only [bne_self_eq_false, Bool.false_eq_true, if_false]
  rw [hnew, hcart]
  simp only [hne, Bool.false_eq_true, if_false]
  exact ⟨_, rfl, rfl⟩

/-- C5: confirming the same succeeded `paymentIntentId` a second time
returns the very order created by the first call and leaves the state
of the second call identical to the state after the first call: no
second order is created and the cart is not cleared again. -/
theorem createOrder_idempotent
    (now1 now2 : Nat) (st : SysState) (userId pid : String) (addr : ShippingAddress)
    (cart : Cart)
    (hintent : (st.intents.find? (fun q => q.1 == pid)).map Prod.snd = some "succeeded")
    (hnew : st.orders.find? (fun o => o.paymentIntentId == pid) = none)
    (hcart : findCartByUserId st.carts userId = some cart)
    (hne : cart.items.isEmpty = false) :
    ∃ st1 o1, createOrder now1 st userId pid addr = (st1, .ok o1) ∧
      createOrder now2 st1 userId pid addr = (st1, .ok o1) := by
  obtain ⟨o1, h1, hpid⟩ :=
    createOrder_creates now1 st userId pid addr cart hintent hnew hcart hne
  refine ⟨_, o1, h1, createOrder_existing now2 _ userId pid addr o1 ?_ ?_⟩
  · simpa using hintent
  · show (st.orders ++ [o1]).find? (fun q => q.paymentIntentId == pid) = some o1
    simp [List.find?_append, hnew, hpid]

/-- Witness for C5: on `exState`, confirming "pi_1" twice returns the
same (state, order) pair as confirming it once. -/
theorem createOrder_idempotent_witness :
    (exState.intents.find? (fun q => q.1 == "pi_1")).map Prod.snd = some "succeeded" ∧
    exState.orders.find? (fun o => o.paymentIntentId == "pi_1") = none ∧
    findCartByUserId exState.carts "u" = some exCart ∧
    exCart.items.isEmpty = false ∧
    createOrder 9 (createOrder 7 exState "u" "pi_1" exAddr).1 "u" "pi_1" exAddr =
      createOrder 7 exState "u" "pi_1" exAddr := by
  refine ⟨by decide, by decide, by decide, by decide, ?_⟩
  obtain ⟨st1, o1, h1, h2⟩ :=
    createOrder_idempotent 7 9 exState "u" "pi_1" exAddr exCart
      (by decide) (by decide) (by decide) (by decide)
  rw [h1]
  simpa using h2

/-- Rounding to two decimal places as done by the checkout code:
`Math.round(x * 100) / 100`. -/
def roundTo2 (x : Rat) : Rat := (jsRound (x * 100) : Rat) / 100

/-- C7: for a present, non-empty cart whose stored `totalPrice` agrees
with its items (as every saved cart's does), `createPaymentIntent`
issues exactly one provider call whose totals are: subtotal = the sum
of unit price times quantity over the items, tax = 10% of the subtotal
rounded to two decimal places, shipping = 0, total = subtotal + tax +
shipping, and the charged amount is the total in cents. -/
theorem createPaymentIntent_totals
    (st : SysState) (userId : String) (cart : Cart)
    (hcart : findCartByUserId st.carts userId = some cart)
    (hne : cart.items.isEmpty = false)
    (hstored : cart.totalPrice = cartTotalPrice cart.items) :
    ∃ call, createPaymentIntent st userId = ([call], .ok call) ∧
      call.subtotal = cartTotalPrice cart.items ∧
      call.tax = roundTo2 (call.subtotal * (10 / 100)) ∧
      call.shipping = 0 ∧
      call.totalPrice = call.subtotal + call.tax + call.shipping ∧
      call.amount = jsRound (call.totalPrice * 100) := by
  unfold createPaymentIntent
  rw [hcart]
  simp only [hne, Bool.false_eq_true, if_false]
  refine ⟨_, rfl, hstored, ?_, rfl, rfl, rfl⟩
  show (jsRound (cart.totalPrice * (1 / 10) * 100) : Rat) / 100 =
    roundTo2 (cart.totalPrice * (10 / 100))
  unfold roundTo2
  rw [show cart.totalPrice * (10 / 100) * 100 = cart.totalPrice * (1 / 10) * 100 by ring]

/-- Witness for C7: the spec's example cart (price 10.00 qty 2, price
5.00 qty 1) yields subtotal 25, tax 2.50, shipping 0, total 27.50 and
an amount of 2750 cents, in a single provider call. -/
theorem createPaymentIntent_totals_witness :
    findCartByUserId exState.carts "u" = some exCart ∧
    exCart.items.isEmpty = false ∧
    exCart.totalPrice = cartTotalPrice exCart.items ∧
    (createPaymentIntent exState "u").1.length = 1 ∧
    (createPaymentIntent exState "u").2.map IntentCreateCall.subtotal = .ok 25 ∧
    (createPaymentIntent exState "u").2.map IntentCreateCall.tax = .ok (5 / 2) ∧
    (createPaymentIntent exState "u").2.map IntentCreateCall.shipping = .ok 0 ∧
    (createPaymentIntent exState "u").2.map IntentCreateCall.totalPrice = .ok (55 / 2) ∧
    (createPaymentIntent exState "u").2.map IntentCreateCall.amount = .ok 2750 := by
  have hstored : exCart.totalPrice = cartTotalPrice exCart.items := by
    norm_num [exCart, cartTotalPrice, List.foldl]
  obtain ⟨call, hc, hsub, htax, hship, htot, hamt⟩ :=
    createPaymentIntent_totals exState "u" exCart (by decide) (by decide) hstored
  have h25 : cartTotalPrice exCart.items = (25 : Rat) := by
    norm_num [exCart, cartTotalPrice, List.foldl]
  rw [h25] at hsub
  have htax' : call.tax = (5 : Rat) / 2 := by
    rw [htax, hsub]
    norm_num [roundTo2, jsRound, Int.floor_eq_iff]
  have htot' : call.totalPrice = (55 : Rat) / 2 := by
    rw [htot, hsub, htax', hship]
    norm_num
  have hamt' : call.amount = (2750 : Int) := by
    rw [hamt, htot']
    norm_num [jsRound, Int.floor_eq_iff]
  refine ⟨by decide, by decide, hstored, ?_, ?_, ?_, ?_, ?_, ?_⟩ <;>
    rw [hc] <;> simp [Except.map, hsub, htax', hship, htot', hamt']

/-- An empty cache store with the 300-second default TTL of
`productCache` (300000 ms). -/
def exCache : CacheStore Nat := { cache := [], defaultTTL := 300000 }

/-- Counterexample for C8 as stated: a caller-supplied TTL of 0 is
falsy in `ttlSeconds ? ttlSeconds * 1000 : this.defaultTTL`, so the
entry is stored with the default TTL rather than with
`expiry = now + 0`. -/
theorem cacheSet_zero_ttl_counterexample :
    (CacheStore.set exCache 0 "k" 7 (some 0)).lookup "k" =
      some { data := 7, expiry := 300000 } ∧
    (300000 : Nat) ≠ 0 + 0 * 1000 := by decide

/-- C8 (amended): `get` returns the stored value when the entry exists
and `now ≤ expiry`, deletes the entry and misses when it is expired,
and misses without touching the store when the key is absent; `set`
overwrites any entry under the key, storing expiry `now + ttl·1000`
for a supplied nonzero ttl and `now + defaultTTL` when the ttl is
absent or 0. -/
theorem cache_get_set_spec (A : Type) (s : CacheStore A) (now : Nat) (k : String)
    (v : A) (ttl : Option Nat) (e : CacheEntry A) :
    (s.lookup k = some e → now ≤ e.expiry → s.get now k = (s, some e.data)) ∧
    (s.lookup k = some e → e.expiry < now → s.get now k = (s.del k, none)) ∧
    (s.lookup k = none → s.get now k = (s, none)) ∧
    (∀ t, ttl = some t → t ≠ 0 →
      (s.set now k v ttl).lookup k = some { data := v, expiry := now + t * 1000 }) ∧
    ((ttl = none ∨ ttl = some 0) →
      (s.set now k v ttl).lookup k = some { data := v, expiry := now + s.defaultTTL }) := by
  have hmiss :
      (s.cache.filter (fun q => q.1 != k)).find? (fun q => q.1 == k) = none := by
    rw [List.find?_eq_none]
    intro q hq
    have := (List.mem_filter.mp hq).2
    simpa using this
  have hset : ∀ exp : Nat,
      CacheStore.lookup
        { s with cache := (s.cache.filter (fun q => q.1 != k)) ++ [(k, ⟨v, exp⟩)] } k =
        some { data := v, expiry := exp } := by
    intro exp
    unfold CacheStore.lookup
    simp [List.find?_append, hmiss]
  refine ⟨?_, ?_, ?_, ?_, ?_⟩
  · intro hl hle
    unfold CacheStore.get
    rw [hl]
    simp [Nat.not_lt.mpr hle]
  · intro hl hlt
    unfold CacheStore.get
    rw [hl]
    simp [hlt]
  · intro hl
    unfold CacheStore.get
    rw [hl]
  · intro t ht ht0
    subst ht
    unfold CacheStore.set
    simpa [ht0] using hset (now + t * 1000)
  · intro h
    rcases h with rfl | rfl
    · unfold CacheStore.set
      simpa using hset (now + s.defaultTTL)
    · unfold CacheStore.set
      simpa using hset (now + s.defaultTTL)

/-- Witness for C8 (amended), replaying the spec scenario on `exCache`:
`set(k, v, ttl = 1s)` stores expiry 1000 ms; reading at 0 ms returns
`v`; reading at 1100 ms evicts and misses; reading an absent key
misses; `set` without a ttl uses the default TTL. -/
theorem cache_get_set_spec_witness :
    (CacheStore.set exCache 0 "k" 7 (some 1)).lookup "k" =
      some { data := 7, expiry := 1000 } ∧
    (CacheStore.set exCache 0 "k" 7 (some 1)).get 0 "k" =
      (CacheStore.set exCache 0 "k" 7 (some 1), some 7) ∧
    (CacheStore.set exCache 0 "k" 7 (some 1)).get 1100 "k" =
      ((CacheStore.set exCache 0 "k" 7 (some 1)).del "k", none) ∧
    exCache.get 0 "k" = (exCache, none) ∧
    (CacheStore.set exCache 0 "k" 7 none).lookup "k" =
      some { data := 7, expiry := 300000 } := by
  have hstore :=
    (cache_get_set_spec Nat exCache 0 "k" 7 (some 1) { data := 7, expiry := 1000 }).2.2.2.1
      1 rfl (by decide)
  refine ⟨hstore, ?_, ?_, ?_, ?_⟩
  · exact (cache_get_set_spec Nat (CacheStore.set exCache 0 "k" 7 (some 1)) 0 "k" 7
      (some 1) { data := 7, expiry := 1000 }).1 hstore (by decide)
  · exact (cache_get_set_spec Nat (CacheStore.set exCache 0 "k" 7 (some 1)) 1100 "k" 7
      (some 1) { data := 7, expiry := 1000 }).2.1 hstore (by decide)
  · exact (cache_get_set_spec Nat exCache 0 "k" 7 (some 1)
      { data := 7, expiry := 1000 }).2.2.1 (by decide)
  · exact (cache_get_set_spec Nat exCache 0 "k" 7 none
      { data := 7, expiry := 1000 }).2.2.2.2 (Or.inl rfl)

/-- The order produced by the C2 counterexample: `exOrderPending`
transitioned to `processing` with the supplied tracking data stored. -/
def exOrderProcTracked : Order :=
  { exOrderPending with
    orderStatus := .processing
    statusHistory := exOrderPending.statusHistory ++
      [{ status := .processing, timestamp := 5, note := some "Order processing" }]
    trackingInfo := some exTracking }

/-- Counterexample for C2 as stated: transitioning `pending` →
`processing` (a valid transition whose target is not `shipped`) with
caller-supplied tracking data stores that tracking data on the order,
so `trackingInfo` is not stored "only when the new status is shipped". -/
theorem updateOrderStatus_tracking_counterexample :
    (updateOrderStatus 5 [exOrderPending] "o1" exPayloadTrack).2 =
      .ok (some exOrderProcTracked) ∧
    exPayloadTrack.status ≠ .shipped ∧
    exOrderProcTracked.trackingInfo = some exTracking ∧
    exOrderPending.trackingInfo = none :=
  ⟨rfl, by decide, rfl, rfl⟩

/-- C2 (amended): a valid transition sets `orderStatus` to the target,
appends exactly one `statusHistory` entry carrying the new status, the
current timestamp and the caller's note (defaulted to "Order {status}"
when the note is absent or empty), and overwrites `trackingInfo` with
the caller-supplied value whenever one is supplied — on any valid
transition, not only to `shipped` — keeping the previous value
otherwise; no other document is touched. -/
theorem updateOrderStatus_valid_applies
    (now : Nat) (db : OrderDB) (orderId : String) (p : UpdateOrderStatusPayload)
    (o : Order) (hfind : findById db orderId = some o)
    (hvalid : p.status ∈ validTransitions o.orderStatus) :
    ∃ db' o', updateOrderStatus now db orderId p = (db', .ok (some o')) ∧
      o'.orderStatus = p.status ∧
      o'.statusHistory = o.statusHistory ++
        [{ status := p.status, timestamp := now,
           note := some (noteWithDefault p.note ("Order " ++ p.status.toText)) }] ∧
      o'.trackingInfo =
        (match p.trackingInfo with
         | some t => some t
         | none => o.trackingInfo) ∧
      findById db' orderId = some o' ∧
      (∀ j, j ≠ orderId → findById db' j = findById db j) := by
  have hsame := findById_update_same db orderId (fun q =>
    { q with
      orderStatus := p.status
      statusHistory := q.statusHistory ++
        [{ status := p.status, timestamp := now,
           note := some (noteWithDefault p.note ("Order " ++ p.status.toText)) }]
      trackingInfo :=
        match p.trackingInfo with
        | some t => some t
        | none => q.trackingInfo }) (fun q => rfl)
  rw [hfind, Option.map_some'] at hsame
  refine ⟨_, _, ?_, ?_, ?_, ?_, hsame, ?_⟩
  · unfold updateOrderStatus
    rw [hfind]
    simp only [hvalid, if_true]
    rw [hsame]
  · rfl
  · rfl
  · rfl
  · intro j hj
    exact findById_update_ne db orderId j _ (fun q => rfl) hj

/-- A payload for `processing` carrying neither note nor tracking. -/
def exPayloadProcPlain : UpdateOrderStatusPayload :=
  { status := .processing, note := none, trackingInfo := none }

/-- Witness for C2 (amended): the `pending` → `processing` transition
on `exOrderPending` with no note appends one entry with the synthesized
note "Order processing" and keeps `trackingInfo` empty. -/
theorem updateOrderStatus_valid_applies_witness :
    findById [exOrderPending] "o1" = some exOrderPending ∧
    OrderStatus.processing ∈ validTransitions exOrderPending.orderStatus ∧
    (updateOrderStatus 5 [exOrderPending] "o1" exPayloadProcPlain).2.map
        (Option.map Order.orderStatus) = .ok (some .processing) ∧
    (updateOrderStatus 5 [exOrderPending] "o1" exPayloadProcPlain).2.map
        (Option.map Order.statusHistory) =
      .ok (some (exOrderPending.statusHistory ++
        [{ status := .processing, timestamp := 5, note := some "Order processing" }])) ∧
    (updateOrderStatus 5 [exOrderPending] "o1" exPayloadProcPlain).2.map
        (Option.map Order.trackingInfo) = .ok (some none) := by
  obtain ⟨db', o', h, hs, hh, ht, _, _⟩ :=
    updateOrderStatus_valid_applies 5 [exOrderPending] "o1" exPayloadProcPlain
      exOrderPending (by decide) (by decide)
  refine ⟨by decide, by decide, ?_, ?_, ?_⟩ <;> rw [h] <;>
    simp [Except.map, hs, hh, ht, exPayloadProcPlain, noteWithDefault,
      OrderStatus.toText, exOrderPending]

/-- `findIndex` semantics: a list containing a match splits around its
first match, and `set` at that index rewrites exactly that element. -/
theorem findIdx_first_match (p : CartItem → Bool) :
    ∀ (items : List CartItem), (∃ it ∈ items, p it = true) →
      ∃ l1 it l2, items = l1 ++ it :: l2 ∧ (∀ x ∈ l1, p x = false) ∧ p it = true ∧
        items.findIdx? p = some l1.length ∧
        items[l1.length]? = some it ∧
        ∀ v, items.set l1.length v = l1 ++ v :: l2 := by
  intro items
  induction items with
  | nil =>
    rintro ⟨it, h, _⟩
    cases h
  | cons a rest ih =>
    rintro ⟨it, hmem, hp⟩
    by_cases ha : p a = true
    · exact ⟨[], a, rest, rfl, by simp, ha,
        by simp [List.findIdx?_cons, ha], by simp, fun v => rfl⟩
    · have hrest : ∃ it ∈ rest, p it = true := by
        rcases List.mem_cons.mp hmem with rfl | h
        · exact absurd hp ha
        · exact ⟨it, h, hp⟩
      obtain ⟨l1, it', l2, heq, hl1, hit, hidx, hget, hset⟩ := ih hrest
      refine ⟨a :: l1, it', l2, by simp [heq], ?_, hit, ?_, ?_, ?_⟩
      · intro x hx
        rcases List.mem_cons.mp hx with rfl | hx
        · simpa using ha
        · exact hl1 x hx
      · simp [List.findIdx?_cons, List.findIdx?_succ, ha, hidx]
      · simpa using hget
      · intro v
        show a :: rest.set l1.length v = a :: (l1 ++ v :: l2)
        rw [hset v]

/-- C10: adding a product already present in the cart keeps the carts's
product-id sequence, adds the requested quantity to the first matching
item, overwrites that item's stored unit price with the newly supplied
price (the original snapshot is not retained), leaves every other item
unchanged, and recomputes both totals from the updated items. -/
theorem addToCart_existing
    (cart : Cart) (input : AddToCartInput) (now : Nat)
    (hmem : ∃ it ∈ cart.items, it.productId = input.productId) :
    (addToCart cart input now).items.map CartItem.productId =
      cart.items.map CartItem.productId ∧
    (∃ l1 it l2, cart.items = l1 ++ it :: l2 ∧
      (∀ x ∈ l1, x.productId ≠ input.productId) ∧
      it.productId = input.productId ∧
      (addToCart cart input now).items =
        l1 ++ { it with quantity := it.quantity + input.quantity, price := input.price } :: l2) ∧
    (addToCart cart input now).totalItems =
      cartTotalItems (addToCart cart input now).items ∧
    (addToCart cart input now).totalPrice =
      cartTotalPrice (addToCart cart input now).items := by
  obtain ⟨l1, it, l2, heq, hl1, hit, hidx, hget, hset⟩ :=
    findIdx_first_match (fun q => q.productId == input.productId) cart.items
      (by
        obtain ⟨q, hq, he⟩ := hmem
        exact ⟨q, hq, by simp [he]⟩)
  have hfull : addToCart cart input now =
      calculateTotals { cart with items :=
        l1 ++ { it with quantity := it.quantity + input.quantity, price := input.price } :: l2 } := by
    unfold addToCart
    rw [hidx]
    simp only
    rw [hget]
    simp only
    rw [hset]
  have hitems : (addToCart cart input now).items =
      l1 ++ { it with quantity := it.quantity + input.quantity, price := input.price } :: l2 := by
    rw [hfull]
    rfl
  refine ⟨?_, ⟨l1, it, l2, heq, ?_, by simpa using hit, hitems⟩, ?_, ?_⟩
  · rw [hitems, heq]
    simp
  · intro x hx
    have := hl1 x hx
    simpa using this
  · rw [hfull]
    rfl
  · rw [hfull]
    rfl

/-- An add-to-cart request for product 1 (already in `exCart`) with a
different unit price than the stored snapshot. -/
def exAdd : AddToCartInput :=
  { productId := 1, quantity := 3, price := 12, title := "Mouse", thumbnail := "th" }

/-- Witness for C10: adding product 1 (qty 3, price 12) to `exCart`
keeps the product ids [1, 2], makes the quantities [5, 1], replaces the
stored price 10 by 12, and recomputes the totals from the items. -/
theorem addToCart_existing_witness :
    exAdd.productId ∈ exCart.items.map CartItem.productId ∧
    (addToCart exCart exAdd 9).items.map CartItem.productId =
      exCart.items.map CartItem.productId ∧
    (addToCart exCart exAdd 9).items.map CartItem.quantity = [5, 1] ∧
    (addToCart exCart exAdd 9).items.map CartItem.price = [12, 5] ∧
    (addToCart exCart exAdd 9).totalItems =
      cartTotalItems (addToCart exCart exAdd 9).items ∧
    (addToCart exCart exAdd 9).totalPrice =
      cartTotalPrice (addToCart exCart exAdd 9).items := by
  obtain ⟨h1, _, h3, h4⟩ :=
    addToCart_existing exCart exAdd 9
      ⟨⟨1, 2, 10, "Mouse", "th", 0⟩, by decide, by decide⟩
  exact ⟨by decide, h1, rfl, rfl, h3, h4⟩

/-- An order whose status history ends in an entry carrying its current
status satisfies the invariant. -/
theorem historyOk_last (o : Order) (h : List StatusHistoryEntry) (e : StatusHistoryEntry)
    (hh : o.statusHistory = h ++ [e]) (hs : o.orderStatus = e.status) : historyOk o := by
  constructor
  · rw [hh]
    simp
  · rw [hh, List.getLast?_concat, hs]
    rfl

/-- `findByIdAndUpdate` keeps the invariant when both the untouched
documents and the rewritten one satisfy it. -/
theorem historyOk_update_mem (db : OrderDB) (i : String) (f : Order → Order)
    (hdb : ∀ o ∈ db, historyOk o) (hf : ∀ o ∈ db, historyOk (f o)) :
    ∀ o ∈ findByIdAndUpdate db i f, historyOk o := by
  intro o ho
  obtain ⟨q, hq, rfl⟩ := List.mem_map.mp ho
  by_cases h : (q._id == i) = true
  · simp only [h, if_true]
    exact hf q hq
  · simp only [h, Bool.false_eq_true, if_false]
    exact hdb q hq

/-- Every step of the bulk-update loop preserves the invariant on the
collection component of the accumulator. -/
theorem bulk_foldl_historyOk (now : Nat) (status : OrderStatus) (note : Option String) :
    ∀ (ids : List String) (acc : OrderDB × Nat × Nat × List String),
      (∀ o ∈ acc.1, historyOk o) →
      ∀ o ∈ (ids.foldl (bulkStep now status note) acc).1, historyOk o := by
  intro ids
  induction ids with
  | nil =>
    intro acc hacc o ho
    exact hacc o ho
  | cons i rest ih =>
    intro acc hacc
    rw [List.foldl_cons]
    apply ih
    obtain ⟨db, u, f, e⟩ := acc
    intro o ho
    unfold bulkStep at ho
    dsimp only at ho
    split at ho
    · exact hacc o ho
    · split at ho
      · dsimp only at ho
        exact historyOk_update_mem db i _ hacc
          (fun q hq => historyOk_last _ q.statusHistory _ rfl rfl) o ho
      · exact hacc o ho

/-- C3: every operation of the lifecycle engine — order creation,
single status update, and bulk status update — preserves the invariant
that each stored order's `statusHistory` is non-empty and ends in an
entry whose status equals the order's current `orderStatus` (a freshly
created order satisfies it with its two creation entries). -/
theorem orderHistoryInvariant_preserved :
    (∀ (now : Nat) (st : SysState) (userId pid : String) (addr : ShippingAddress),
      (∀ o ∈ st.orders, historyOk o) →
      ∀ o ∈ (createOrder now st userId pid addr).1.orders, historyOk o) ∧
    (∀ (now : Nat) (db : OrderDB) (orderId : String) (p : UpdateOrderStatusPayload),
      (∀ o ∈ db, historyOk o) →
      ∀ o ∈ (updateOrderStatus now db orderId p).1, historyOk o) ∧
    (∀ (now : Nat) (db : OrderDB) (pl : BulkUpdateStatusPayload),
      (∀ o ∈ db, historyOk o) →
      ∀ o ∈ (bulkUpdateOrderStatus now db pl).1, historyOk o) := by
  refine ⟨?_, ?_, ?_⟩
  · intro now st userId pid addr hdb o ho
    unfold createOrder at ho
    split at ho
    · exact hdb o ho
    · split at ho
      · exact hdb o ho
      · split at ho
        · exact hdb o ho
        · split at ho
          · exact hdb o ho
          · split at ho
            · exact hdb o ho
            · dsimp only at ho
              rcases List.mem_append.mp ho with h | h
              · exact hdb o h
              · rw [List.mem_singleton.mp h]
                exact historyOk_last _
                  [{ status := .pending, timestamp := now, note := some "Order placed" }]
                  { status := .processing, timestamp := now, note := some "Payment confirmed" }
                  rfl rfl
  · intro now db orderId p hdb o ho
    unfold updateOrderStatus at ho
    split at ho
    · exact hdb o ho
    · split at ho
      · dsimp only at ho
        exact historyOk_update_mem db orderId _ hdb
          (fun q hq => historyOk_last _ q.statusHistory _ rfl rfl) o ho
      · exact hdb o ho
  · intro now db pl hdb o ho
    unfold bulkUpdateOrderStatus at ho
    dsimp only at ho
    exact bulk_foldl_historyOk now pl.status pl.note pl.orderIds (db, 0, 0, []) hdb o ho

/-- The order left in the collection after the C3 witness update. -/
def exOrderProcFromUpdate : Order :=
  { exOrderPending with
    orderStatus := .processing
    statusHistory := exOrderPending.statusHistory ++
      [{ status := .processing, timestamp := 5, note := some "Order processing" }] }

/-- Witness for C3: the order produced by a concrete valid update on a
collection satisfying the invariant satisfies the invariant. -/
theorem orderHistoryInvariant_preserved_witness : historyOk exOrderProcFromUpdate :=
  orderHistoryInvariant_preserved.2.1 5 [exOrderPending] "o1" exPayloadProcPlain
    (by decide) exOrderProcFromUpdate (by decide)

/-- Not-found branch of the bulk loop body: one error message is
collected, the failed count grows by one, the collection is untouched
and the loop moves on. -/
theorem bulkStep_notFound (now : Nat) (status : OrderStatus) (note : Option String)
    (db : OrderDB) (u f : Nat) (e : List String) (i : String)
    (h : findById db i = none) :
    bulkStep now status note (db, u, f, e) i =
      (db, u, f + 1, e ++ ["Order " ++ i ++ " not found"]) := by
  unfold bulkStep
  dsimp only
  rw [h]

/-- Invalid-transition branch of the bulk loop body: one error message
naming the order and both statuses is collected, the failed count grows
by one, the collection is untouched and the loop moves on. -/
theorem bulkStep_invalid (now : Nat) (status : OrderStatus) (note : Option String)
    (db : OrderDB) (u f : Nat) (e : List String) (i : String) (o : Order)
    (h : findById db i = some o) (hv : status ∉ validTransitions o.orderStatus) :
    bulkStep now status note (db, u, f, e) i =
      (db, u, f + 1,
       e ++ ["Order " ++ i ++ ": Invalid transition from "
         ++ o.orderStatus.toText ++ " to " ++ status.toText]) := by
  unfold bulkStep
  dsimp only
  rw [h]
  simp [hv]

/-- Valid branch of the bulk loop body: the order is rewritten through
`bulkApply` and the updated count grows by one. -/
theorem bulkStep_valid (now : Nat) (status : OrderStatus) (note : Option String)
    (db : OrderDB) (u f : Nat) (e : List String) (i : String) (o : Order)
    (h : findById db i = some o) (hv : status ∈ validTransitions o.orderStatus) :
    bulkStep now status note (db, u, f, e) i =
      (findByIdAndUpdate db i (bulkApply now status note), u + 1, f, e) := by
  unfold bulkStep
  dsimp only
  rw [h]
  simp [hv]

/-- `canUpdate` unfolded to its two requirements. -/
theorem canUpdate_true_iff (db : OrderDB) (status : OrderStatus) (i : String) :
    canUpdate db status i = true ↔
      ∃ o, findById db i = some o ∧ status ∈ validTransitions o.orderStatus := by
  unfold canUpdate
  rcases h : findById db i with _ | o <;> simp

/-- Loop invariant of the bulk-update fold: starting from a collection
that agrees with `db0` on every id still to be processed, the fold adds
one to the updated count for each processable id and one to the failed
count and one error message for each other id, never touches documents
whose id is not in the list, and leaves every processable id's order at
the target status. -/
theorem bulk_fold_spec (now : Nat) (status : OrderStatus) (note : Option String)
    (db0 : OrderDB) :
    ∀ (ids : List String) (db : OrderDB) (u f : Nat) (e : List String),
      ids.Nodup →
      (∀ j ∈ ids, findById db j = findById db0 j) →
      (ids.foldl (bulkStep now status note) (db, u, f, e)).2.1 =
          u + ids.countP (fun i => canUpdate db0 status i) ∧
      (ids.foldl (bulkStep now status note) (db, u, f, e)).2.2.1 =
          f + ids.countP (fun i => !canUpdate db0 status i) ∧
      (ids.foldl (bulkStep now status note) (db, u, f, e)).2.2.2.length =
          e.length + ids.countP (fun i => !canUpdate db0 status i) ∧
      (∀ j, j ∉ ids →
        findById (ids.foldl (bulkStep now status note) (db, u, f, e)).1 j =
          findById db j) ∧
      (∀ j ∈ ids, canUpdate db0 status j = true →
        ∃ o, findById (ids.foldl (bulkStep now status note) (db, u, f, e)).1 j = some o ∧
          o.orderStatus = status) := by
  intro ids
  induction ids with
  | nil =>
    intro db u f e _ _
    exact ⟨by simp, by simp, by simp, fun j _ => rfl,
      fun j hj => absurd hj (List.not_mem_nil j)⟩
  | cons i rest ih =>
    intro db u f e hnd hsame
    obtain ⟨hi, hnd'⟩ := List.nodup_cons.mp hnd
    have hsame_i : findById db i = findById db0 i := hsame i (List.mem_cons_self i rest)
    by_cases hcan : canUpdate db0 status i = true
    · obtain ⟨o, ho, hval⟩ := (canUpdate_true_iff db0 status i).mp hcan
      have hstep := bulkStep_valid now status note db u f e i o (hsame_i.trans ho) hval
      have hupd : findById (findByIdAndUpdate db i (bulkApply now status note)) i =
          some (bulkApply now status note o) := by
        rw [findById_update_same db i (bulkApply now status note) (fun q => rfl),
          hsame_i.trans ho, Option.map_some']
      have hsame' : ∀ j ∈ rest,
          findById (findByIdAndUpdate db i (bulkApply now status note)) j =
            findById db0 j := by
        intro j hj
        rw [findById_update_ne db i j (bulkApply now status note) (fun q => rfl)
          (fun hji => hi (hji ▸ hj))]
        exact hsame j (List.mem_cons_of_mem i hj)
      obtain ⟨ih1, ih2, ih3, ih4, ih5⟩ :=
        ih (findByIdAndUpdate db i (bulkApply now status note)) (u + 1) f e hnd' hsame'
      simp only [List.foldl_cons, hstep]
      refine ⟨?_, ?_, ?_, ?_, ?_⟩
      · rw [ih1, List.countP_cons]
        simp only [hcan, if_true]
        omega
      · rw [ih2, List.countP_cons]
        simp [hcan]
      · rw [ih3, List.countP_cons]
        simp [hcan]
      · intro j hj
        have hj1 : j ≠ i := fun hji => hj (hji ▸ List.mem_cons_self i rest)
        have hj2 : j ∉ rest := fun hjr => hj (List.mem_cons_of_mem i hjr)
        rw [ih4 j hj2,
          findById_update_ne db i j (bulkApply now status note) (fun q => rfl) hj1]
      · intro j hjmem hcj
        rcases List.mem_cons.mp hjmem with rfl | hjr
        · exact ⟨bulkApply now status note o, by rw [ih4 j hi, hupd], rfl⟩
        · exact ih5 j hjr hcj
    · have hstep : ∃ msg, bulkStep now status note (db, u, f, e) i =
          (db, u, f + 1, e ++ [msg]) := by
        rcases hfo : findById db0 i with _ | o
        · exact ⟨_, bulkStep_notFound now status note db u f e i (hsame_i.trans hfo)⟩
        · have hnv : status ∉ validTransitions o.orderStatus := fun hv =>
            hcan ((canUpdate_true_iff db0 status i).mpr ⟨o, hfo, hv⟩)
          exact ⟨_, bulkStep_invalid now status note db u f e i o (hsame_i.trans hfo) hnv⟩
      obtain ⟨msg, hstep⟩ := hstep
      have hcF : canUpdate db0 status i = false := Bool.eq_false_iff.mpr hcan
      have hsame' : ∀ j ∈ rest, findById db j = findById db0 j :=
        fun j hj => hsame j (List.mem_cons_of_mem i hj)
      obtain ⟨ih1, ih2, ih3, ih4, ih5⟩ := ih db u (f + 1) (e ++ [msg]) hnd' hsame'
      simp only [List.foldl_cons, hstep]
      refine ⟨?_, ?_, ?_, ?_, ?_⟩
      · rw [ih1, List.countP_cons]
        simp [hcF]
      · rw [ih2, List.countP_cons]
        simp only [hcF, Bool.not_false, if_true]
        omega
      · rw [ih3, List.countP_cons]
        simp only [hcF, Bool.not_false, if_true, List.length_append, List.length_singleton]
        omega
      · intro j hj
        exact ih4 j (fun hjr => hj (List.mem_cons_of_mem i hjr))
      · intro j hjmem hcj
        rcases List.mem_cons.mp hjmem with rfl | hjr
        · exact absurd hcj hcan
        · exact ih5 j hjr hcj

/-- C9: `bulkUpdateOrderStatus` over distinct order ids applies the
single-order transition rule to each id independently: the updated
count is the number of ids whose order exists and admits the target,
the failed count is the number of remaining ids, the two counts sum to
the number of ids, exactly one error message is collected per failed
id, every processable id's order ends at the target status (successful
updates are not rolled back by later failures), and a not-found or
invalid id only adds its error message and failure count, letting the
loop continue. -/
theorem bulkUpdateOrderStatus_spec (now : Nat) (db : OrderDB)
    (p : BulkUpdateStatusPayload) (hnd : p.orderIds.Nodup) :
    (bulkUpdateOrderStatus now db p).2.updated =
        p.orderIds.countP (fun i => canUpdate db p.status i) ∧
    (bulkUpdateOrderStatus now db p).2.failed =
        p.orderIds.countP (fun i => !canUpdate db p.status i) ∧
    (bulkUpdateOrderStatus now db p).2.updated + (bulkUpdateOrderStatus now db p).2.failed =
        p.orderIds.length ∧
    ((bulkUpdateOrderStatus now db p).2.errors.getD []).length =
        (bulkUpdateOrderStatus now db p).2.failed ∧
    (∀ j ∈ p.orderIds, canUpdate db p.status j = true →
      ∃ o, findById (bulkUpdateOrderStatus now db p).1 j = some o ∧
        o.orderStatus = p.status) ∧
    (∀ (dbx : OrderDB) (u f : Nat) (e : List String) (i : String),
      findById dbx i = none →
      bulkStep now p.status p.note (dbx, u, f, e) i =
        (dbx, u, f + 1, e ++ ["Order " ++ i ++ " not found"])) ∧
    (∀ (dbx : OrderDB) (u f : Nat) (e : List String) (i : String) (o : Order),
      findById dbx i = some o → p.status ∉ validTransitions o.orderStatus →
      bulkStep now p.status p.note (dbx, u, f, e) i =
        (dbx, u, f + 1,
         e ++ ["Order " ++ i ++ ": Invalid transition from "
           ++ o.orderStatus.toText ++ " to " ++ p.status.toText])) := by
  obtain ⟨h1, h2, h3, h4, h5⟩ :=
    bulk_fold_spec now p.status p.note db p.orderIds db 0 0 [] hnd (fun j _ => rfl)
  have hlen :
      p.orderIds.countP (fun i => canUpdate db p.status i) +
        p.orderIds.countP (fun i => !canUpdate db p.status i) = p.orderIds.length := by
    simpa using
      (List.length_eq_countP_add_countP (fun i => canUpdate db p.status i)
        (l := p.orderIds)).symm
  simp only [List.length_nil, Nat.zero_add] at h3
  have hred : bulkUpdateOrderStatus now db p =
      ((p.orderIds.foldl (bulkStep now p.status p.note) (db, 0, 0, [])).1,
       { success :=
           (p.orderIds.foldl (bulkStep now p.status p.note) (db, 0, 0, [])).2.2.1 == 0
         updated := (p.orderIds.foldl (bulkStep now p.status p.note) (db, 0, 0, [])).2.1
         failed := (p.orderIds.foldl (bulkStep now p.status p.note) (db, 0, 0, [])).2.2.1
         errors :=
           if (p.orderIds.foldl (bulkStep now p.status p.note) (db, 0, 0, [])).2.2.2.length > 0
           then some (p.orderIds.foldl (bulkStep now p.status p.note) (db, 0, 0, [])).2.2.2
           else none }) := rfl
  rw [hred]
  dsimp only
  refine ⟨?_, ?_, ?_, ?_, ?_, ?_, ?_⟩
  · omega
  · omega
  · omega
  · split
    · simp only [Option.getD_some]
      omega
    · simp only [Option.getD_none, List.length_nil]
      omega
  · intro j hj hc
    obtain ⟨o, ho, hs⟩ := h5 j hj hc
    exact ⟨o, ho, hs⟩
  · intro dbx u f e i h
    exact bulkStep_notFound now p.status p.note dbx u f e i h
  · intro dbx u f e i o h hv
    exact bulkStep_invalid now p.status p.note dbx u f e i o h hv

/-- A collection with two pending orders for the C9 witness. -/
def exDb2 : OrderDB := [exOrderPending, exOrderPendingB]

/-- A bulk request over N = 3 ids of which exactly one ("nope") is
invalid (not found). -/
def exBulkPayload : BulkUpdateStatusPayload :=
  { orderIds := ["o1", "o2", "nope"], status := .processing, note := none }

/-- Witness for C9: the 3-id batch with one bad id yields updated = 2
and failed = 1 (summing to 3), one error message, and the two valid
orders are left at `processing` (not rolled back). -/
theorem bulkUpdateOrderStatus_spec_witness :
    exBulkPayload.orderIds.Nodup ∧
    (bulkUpdateOrderStatus 5 exDb2 exBulkPayload).2.updated = 2 ∧
    (bulkUpdateOrderStatus 5 exDb2 exBulkPayload).2.failed = 1 ∧
    (bulkUpdateOrderStatus 5 exDb2 exBulkPayload).2.updated +
      (bulkUpdateOrderStatus 5 exDb2 exBulkPayload).2.failed = 3 ∧
    ((bulkUpdateOrderStatus 5 exDb2 exBulkPayload).2.errors.getD []).length = 1 ∧
    (findById (bulkUpdateOrderStatus 5 exDb2 exBulkPayload).1 "o1").map Order.orderStatus =
      some .processing ∧
    (findById (bulkUpdateOrderStatus 5 exDb2 exBulkPayload).1 "o2").map Order.orderStatus =
      some .processing := by
  obtain ⟨h1, h2, h3, h4, h5, _, _⟩ :=
    bulkUpdateOrderStatus_spec 5 exDb2 exBulkPayload (by decide)
  refine ⟨by decide, ?_, ?_, ?_, ?_, ?_, ?_⟩
  · rw [h1]; decide
  · rw [h2]; decide
  · rw [h3]; decide
  · rw [h4, h2]; decide
  · obtain ⟨o, ho, hs⟩ := h5 "o1" (by decide) (by decide)
    rw [ho, Option.map_some', hs]
    rfl
  · obtain ⟨o, ho, hs⟩ := h5 "o2" (by decide) (by decide)
    rw [ho, Option.map_some', hs]
    rfl

end ECom
